import Mathlib

/-!
Shallow embedding of the medical image co-registration program
(`medical_image_corregistration.py`): image pyramid construction, the
similarity-transform resampler (inverse mapping with bilinear
interpolation), the SSD cost function, symmetric finite-difference
gradient estimation, the Adam optimizer, and the coarse-to-fine
registration driver loop.  Machine floats are modelled by real numbers.
-/

namespace MedReg

/-- A 2D grayscale image: its dimensions and an intensity sample at each
pixel position `(i, j)` (row, column). -/
structure Img where
  rows : ℕ
  cols : ℕ
  px : ℕ → ℕ → ℝ

instance : Inhabited Img := ⟨⟨0, 0, fun _ _ => 0⟩⟩

/-- A transform parameter vector `(s, theta, tx, ty)`, indexed 0..3 as in
the numpy array `params`. -/
abbrev Params := Fin 4 → ℝ

/-- `ssd(image1, image2)`: sum over all pixels of squared intensity
differences (`np.sum((image1 - image2)**2)`). -/
noncomputable def ssd (image1 image2 : Img) : ℝ :=
  ∑ i ∈ Finset.range image1.rows, ∑ j ∈ Finset.range image1.cols,
    (image1.px i j - image2.px i j) ^ 2

/-- Pixel lookup at integer coordinates with the constant fill value 0
outside the image bounds (scipy `mode='constant', cval=0.0`). -/
noncomputable def pixAt (image : Img) (i j : ℤ) : ℝ :=
  if 0 ≤ i ∧ i < (image.rows : ℤ) ∧ 0 ≤ j ∧ j < (image.cols : ℤ) then
    image.px i.toNat j.toNat
  else 0

/-- First-order (bilinear) interpolation of `image` at real source
coordinates `(y, x)` (scipy `affine_transform` with `order=1`). -/
noncomputable def bilinear (image : Img) (y x : ℝ) : ℝ :=
  let i0 : ℤ := ⌊y⌋
  let j0 : ℤ := ⌊x⌋
  let dy : ℝ := y - (i0 : ℝ)
  let dx : ℝ := x - (j0 : ℝ)
  (1 - dy) * (1 - dx) * pixAt image i0 j0
    + (1 - dy) * dx * pixAt image i0 (j0 + 1)
    + dy * (1 - dx) * pixAt image (i0 + 1) j0
    + dy * dx * pixAt image (i0 + 1) (j0 + 1)

/-- `inv_s = 1.0 / s if s != 0 else 1.0`: the resampler's inverse-scale
guard against a zero scale parameter. -/
noncomputable def inv_s (s : ℝ) : ℝ := if s ≠ 0 then 1 / s else 1

/-- `np.deg2rad(theta)`. -/
noncomputable def theta_rad (theta : ℝ) : ℝ := theta * Real.pi / 180

/-- The 2x2 matrix `inv_rot_matrix * inv_s` built from the scale `s` and
the rotation angle `th` in radians (`inv_theta_rad = -th`). -/
noncomputable def transformMatrix (s th : ℝ) : Fin 2 → Fin 2 → ℝ :=
  let inv_theta_rad := -th
  let c := Real.cos inv_theta_rad
  let sn := Real.sin inv_theta_rad
  fun a b =>
    if a = 0 then (if b = 0 then c * inv_s s else -sn * inv_s s)
    else (if b = 0 then sn * inv_s s else c * inv_s s)

/-- `offset = center - matrix @ center - matrix @ translation` where
`center = image.shape / 2` and `translation = (ty, tx)` (row, column
order, as in the source). -/
noncomputable def transformOffset (image : Img) (p : Params) : ℝ × ℝ :=
  let M := transformMatrix (p 0) (theta_rad (p 1))
  let cy := (image.rows : ℝ) / 2
  let cx := (image.cols : ℝ) / 2
  let tx := p 2
  let ty := p 3
  (cy - (M 0 0 * cy + M 0 1 * cx) - (M 0 0 * ty + M 0 1 * tx),
   cx - (M 1 0 * cy + M 1 1 * cx) - (M 1 0 * ty + M 1 1 * tx))

/-- `similarity_transform(image, params)`: inverse-mapping resampler.
Each output pixel `(i, j)` samples the input bilinearly at
`matrix @ (i, j) + offset`. -/
noncomputable def similarity_transform (image : Img) (p : Params) : Img :=
  let M := transformMatrix (p 0) (theta_rad (p 1))
  let off := transformOffset image p
  ⟨image.rows, image.cols, fun i j =>
    bilinear image (M 0 0 * (i : ℝ) + M 0 1 * (j : ℝ) + off.1)
      (M 1 0 * (i : ℝ) + M 1 1 * (j : ℝ) + off.2)⟩

/-- The default finite-difference step of `compute_gradient` (`h=1e-5`). -/
noncomputable def grad_h_default : ℝ := 1e-5

/-- One entry of the finite-difference gradient: perturb parameter `i` by
`+h` and `-h` (all other parameters held at their original values),
resample the moving image under each, evaluate the SSD cost against the
fixed image, and form the symmetric difference quotient. -/
noncomputable def gradEntry (fixed_image moving_image : Img) (params : Params)
    (h : ℝ) (i : Fin 4) : ℝ :=
  let params_plus : Params := fun j => if j = i then params j + h else params j
  let params_minus : Params := fun j => if j = i then params j - h else params j
  let cost_plus := ssd fixed_image (similarity_transform moving_image params_plus)
  let cost_minus := ssd fixed_image (similarity_transform moving_image params_minus)
  (cost_plus - cost_minus) / (2 * h)

/-- The source's `for i in range(len(params))` loop writing the entries of
`grad` (initialised to `np.zeros_like(params)`) one index at a time. -/
noncomputable def gradLoop (fixed_image moving_image : Img) (params : Params)
    (h : ℝ) : List (Fin 4) → Params → Params
  | [], grad => grad
  | i :: rest, grad =>
      gradLoop fixed_image moving_image params h rest
        (fun j => if j = i then gradEntry fixed_image moving_image params h i else grad j)

/-- `compute_gradient(fixed_image, moving_image, params, h=1e-5)`. -/
noncomputable def compute_gradient (fixed_image moving_image : Img) (params : Params)
    (h : ℝ) : Params :=
  gradLoop fixed_image moving_image params h [0, 1, 2, 3] (fun _ => 0)

/-- Adam defaults from the source signature:
`beta1=0.9, beta2=0.999, epsilon=1e-8`. -/
noncomputable def beta1_default : ℝ := 0.9

/-- Adam default `beta2=0.999`. -/
noncomputable def beta2_default : ℝ := 0.999

/-- Adam default `epsilon=1e-8`. -/
noncomputable def epsilon_default : ℝ := 1e-8

/-- The loop state of `adam_optimizer`: the current parameter vector, the
first and second raw moment estimates, and the accumulated cost history. -/
structure AdamState where
  params : Params
  m : Params
  v : Params
  cost_history : List ℝ

/-- The body of one Adam iteration at step count `t`: record the cost,
compute the gradient (at the default step), update the biased moments,
bias-correct, and apply the update to the trainable parameters only. -/
noncomputable def adam_iter (fixed_image moving_image : Img) (learning_rate : ℝ)
    (trainable_params : Fin 4 → Bool) (beta1 beta2 epsilon : ℝ) (t : ℕ)
    (st : AdamState) : AdamState :=
  let transformed_moving := similarity_transform moving_image st.params
  let cost := ssd fixed_image transformed_moving
  let grad := compute_gradient fixed_image moving_image st.params grad_h_default
  let m : Params := fun i => beta1 * st.m i + (1 - beta1) * grad i
  let v : Params := fun i => beta2 * st.v i + (1 - beta2) * (grad i) ^ 2
  let m_hat : Params := fun i => m i / (1 - beta1 ^ t)
  let v_hat : Params := fun i => v i / (1 - beta2 ^ t)
  let update : Params := fun i => learning_rate * m_hat i / (Real.sqrt (v_hat i) + epsilon)
  { params := fun i => if trainable_params i then st.params i - update i else st.params i
    m := m
    v := v
    cost_history := st.cost_history ++ [cost] }

/-- The `for t in range(1, num_iterations + 1)` loop: `t` is the current
iteration counter, the second argument the remaining iteration count. -/
noncomputable def adam_go (fixed_image moving_image : Img) (learning_rate : ℝ)
    (trainable_params : Fin 4 → Bool) (beta1 beta2 epsilon : ℝ) :
    ℕ → ℕ → AdamState → AdamState
  | _, 0, st => st
  | t, fuel + 1, st =>
      adam_go fixed_image moving_image learning_rate trainable_params beta1 beta2 epsilon
        (t + 1) fuel
        (adam_iter fixed_image moving_image learning_rate trainable_params beta1 beta2 epsilon t st)

/-- `adam_optimizer(...) -> (params, cost_history)`: copies the initial
parameters, zero-initialises `m` and `v`, and runs the iteration loop. -/
noncomputable def adam_optimizer (fixed_image moving_image : Img) (initial_params : Params)
    (learning_rate : ℝ) (num_iterations : ℕ) (trainable_params : Fin 4 → Bool)
    (beta1 beta2 epsilon : ℝ) : Params × List ℝ :=
  let final := adam_go fixed_image moving_image learning_rate trainable_params
    beta1 beta2 epsilon 1 num_iterations
    { params := initial_params, m := fun _ => 0, v := fun _ => 0, cost_history := [] }
  (final.params, final.cost_history)

/-- `current_params[2:] /= scale_factor` with `scale_factor = 2**level`:
the translation entries (indices 2 and 3) are divided, the scale and
rotation entries pass through. -/
noncomputable def levelDown (level : ℕ) (p : Params) : Params :=
  fun j => if 2 ≤ j.val then p j / 2 ^ level else p j

/-- `optimal_params[2:] *= scale_factor`: the translation entries are
multiplied back, the scale and rotation entries pass through. -/
noncomputable def levelUp (level : ℕ) (p : Params) : Params :=
  fun j => if 2 ≤ j.val then p j * 2 ^ level else p j

/-- The driver's per-level learning rate (`learning_rate = 0.1`). -/
noncomputable def lr0 : ℝ := 0.1

/-- The driver's per-level iteration budget (`num_iterations = 300`). -/
def iters0 : ℕ := 300

/-- The `for level in range(num_pyramid_levels - 1, -1, -1)` loop of the
registration driver: at each level the carried-over parameters have their
translation entries divided by `2^level`, Adam runs on that level's
images with all four parameters trainable, and the result's translation
entries are multiplied back by `2^level`. -/
noncomputable def registration_loop (fixed_pyramid moving_pyramid : List Img) :
    List ℕ → Params × List ℝ → Params × List ℝ
  | [], acc => acc
  | level :: rest, acc =>
      let fixed_level := fixed_pyramid.getD level default
      let moving_level := moving_pyramid.getD level default
      let current_params := levelDown level acc.1
      let result := adam_optimizer fixed_level moving_level current_params lr0 iters0
        (fun _ => true) beta1_default beta2_default epsilon_default
      registration_loop fixed_pyramid moving_pyramid rest
        (levelUp level result.1, acc.2 ++ result.2)

/-- The initial parameter vector `np.array([1.0, 0.0, 0.0, 0.0])`. -/
noncomputable def identityParams : Params := fun j => if j = 0 then 1 else 0

/-- The whole coarse-to-fine driver, visiting levels
`num_pyramid_levels - 1, ..., 0`. -/
noncomputable def registration_driver (fixed_pyramid moving_pyramid : List Img)
    (num_pyramid_levels : ℕ) : Params × List ℝ :=
  registration_loop fixed_pyramid moving_pyramid
    ((List.range num_pyramid_levels).reverse) (identityParams, [])

/-- `pyramid.append(zoom(pyramid[-1], 0.5))` executed a fixed number of
times; `zoomHalf` models the external `scipy.ndimage.zoom(·, 0.5)`. -/
def pyramid_loop (zoomHalf : Img → Img) : ℕ → List Img → List Img
  | 0, pyramid => pyramid
  | n + 1, pyramid =>
      pyramid_loop zoomHalf n (pyramid ++ [zoomHalf (pyramid.getLastD default)])

/-- `create_pyramid(image, levels)`: starts from `[image]` and appends a
downsampled copy `max(levels - 1, 0)` times (`for i in range(levels - 1)`,
with `levels` a Python integer). -/
def create_pyramid (zoomHalf : Img → Img) (image : Img) (levels : ℤ) : List Img :=
  pyramid_loop zoomHalf (levels - 1).toNat [image]

/-! A small store of numpy parameter arrays, used to state the
no-caller-mutation (frame) properties: `np.copy` allocates a fresh cell,
in-place updates (`params_plus[i] += h`, `params[trainable] -= update`)
write through a reference. -/

/-- A heap of 4-vector arrays: `size` cells are live, a reference is an
index below `size`. -/
structure Store where
  size : ℕ
  data : ℕ → Params

/-- Allocate a fresh array holding `val` (models `np.copy` /
`np.zeros_like`); returns the new store and the fresh reference. -/
def Store.alloc (st : Store) (val : Params) : Store × ℕ :=
  (⟨st.size + 1, fun r => if r = st.size then val else st.data r⟩, st.size)

/-- Overwrite the array at reference `r` (an in-place numpy update). -/
def Store.write (st : Store) (r : ℕ) (val : Params) : Store :=
  ⟨st.size, fun q => if q = r then val else st.data q⟩

/-- One pass of the `compute_gradient` loop body on the store:
`params_plus = np.copy(params); params_plus[i] += h;` likewise for
`params_minus`, then `grad[i] = (cost_plus - cost_minus) / (2*h)`. -/
noncomputable def cg_step (fixed_image moving_image : Img) (params : Params) (h : ℝ)
    (gref : ℕ) (st : Store) (i : Fin 4) : Store :=
  let a1 := st.alloc params
  let st1 := a1.1.write a1.2 (fun j => if j = i then params j + h else params j)
  let a2 := st1.alloc params
  let st2 := a2.1.write a2.2 (fun j => if j = i then params j - h else params j)
  let cost_plus := ssd fixed_image (similarity_transform moving_image (st2.data a1.2))
  let cost_minus := ssd fixed_image (similarity_transform moving_image (st2.data a2.2))
  st2.write gref (fun j => if j = i then (cost_plus - cost_minus) / (2 * h) else st2.data gref j)

/-- `compute_gradient` over the store: reads the caller's array at
`pref`, allocates `grad = np.zeros_like(params)` and the per-index
copies, and writes only into those fresh cells. -/
noncomputable def compute_gradient_st (fixed_image moving_image : Img) (st : Store)
    (pref : ℕ) (h : ℝ) : Store × ℕ :=
  let params := st.data pref
  let a := st.alloc (fun _ => 0)
  (([0, 1, 2, 3] : List (Fin 4)).foldl (cg_step fixed_image moving_image params h a.2) a.1,
   a.2)

/-- One Adam iteration over the store: the only in-place array update is
`params[trainable_params] -= update[trainable_params]` on the solver's
own copy `pref`; `m`, `v` and the bias-corrected values are fresh numpy
temporaries rebound each iteration, carried here as plain values. -/
noncomputable def adam_iter_st (fixed_image moving_image : Img) (learning_rate : ℝ)
    (trainable_params : Fin 4 → Bool) (beta1 beta2 epsilon : ℝ) (t : ℕ)
    (st : Store) (pref : ℕ) (mv : Params × Params) (hist : List ℝ) :
    Store × (Params × Params) × List ℝ :=
  let params := st.data pref
  let cost := ssd fixed_image (similarity_transform moving_image params)
  let g := compute_gradient_st fixed_image moving_image st pref grad_h_default
  let grad := g.1.data g.2
  let m : Params := fun i => beta1 * mv.1 i + (1 - beta1) * grad i
  let v : Params := fun i => beta2 * mv.2 i + (1 - beta2) * (grad i) ^ 2
  let m_hat : Params := fun i => m i / (1 - beta1 ^ t)
  let v_hat : Params := fun i => v i / (1 - beta2 ^ t)
  let update : Params := fun i => learning_rate * m_hat i / (Real.sqrt (v_hat i) + epsilon)
  let st1 := g.1.write pref
    (fun i => if trainable_params i then params i - update i else params i)
  (st1, (m, v), hist ++ [cost])

/-- The Adam iteration loop over the store. -/
noncomputable def adam_go_st (fixed_image moving_image : Img) (learning_rate : ℝ)
    (trainable_params : Fin 4 → Bool) (beta1 beta2 epsilon : ℝ) (pref : ℕ) :
    ℕ → ℕ → Store × (Params × Params) × List ℝ → Store × (Params × Params) × List ℝ
  | _, 0, acc => acc
  | t, fuel + 1, acc =>
      adam_go_st fixed_image moving_image learning_rate trainable_params beta1 beta2 epsilon
        pref (t + 1) fuel
        (adam_iter_st fixed_image moving_image learning_rate trainable_params beta1 beta2
          epsilon t acc.1 pref acc.2.1 acc.2.2)

/-- `adam_optimizer` over the store: `params = np.copy(initial_params)`
allocates the solver's working cell; the caller's cell is only ever
read. Returns the final store, the reference of the returned (fresh)
array, and the cost history. -/
noncomputable def adam_optimizer_st (fixed_image moving_image : Img) (st : Store)
    (initRef : ℕ) (learning_rate : ℝ) (num_iterations : ℕ)
    (trainable_params : Fin 4 → Bool) (beta1 beta2 epsilon : ℝ) :
    Store × ℕ × List ℝ :=
  let a := st.alloc (st.data initRef)
  let fin := adam_go_st fixed_image moving_image learning_rate trainable_params
    beta1 beta2 epsilon a.2 1 num_iterations (a.1, (fun _ => 0, fun _ => 0), [])
  (fin.1, a.2, fin.2.2)

/-- The list of images the append loop of `create_pyramid` adds after the
input image: `zoomHalf` applied once, twice, ... to the running last
entry. -/
def pyramid_chain (zoomHalf : Img → Img) : ℕ → Img → List Img
  | 0, _ => []
  | n + 1, last => zoomHalf last :: pyramid_chain zoomHalf n (zoomHalf last)

/-- The contract of one Adam iteration at step count `t ≥ 1`: the moment
updates, the bias-corrected parameter update applied to the trainable
entries, and the non-vanishing of every denominator the update divides
by (together with the nonnegativity of the argument passed to `sqrt`). -/
def AdamIterSpec (fixed_image moving_image : Img) (learning_rate : ℝ)
    (trainable_params : Fin 4 → Bool) (beta1 beta2 epsilon : ℝ) (t : ℕ)
    (st : AdamState) : Prop :=
  let grad := compute_gradient fixed_image moving_image st.params grad_h_default
  let st' := adam_iter fixed_image moving_image learning_rate trainable_params
    beta1 beta2 epsilon t st
  (∀ i, st'.m i = beta1 * st.m i + (1 - beta1) * grad i) ∧
  (∀ i, st'.v i = beta2 * st.v i + (1 - beta2) * grad i ^ 2) ∧
  (∀ i, trainable_params i = true → st'.params i =
      st.params i - learning_rate * (st'.m i / (1 - beta1 ^ t))
        / (Real.sqrt (st'.v i / (1 - beta2 ^ t)) + epsilon)) ∧
  (∀ i, trainable_params i = false → st'.params i = st.params i) ∧
  1 - beta1 ^ t ≠ 0 ∧ 1 - beta2 ^ t ≠ 0 ∧
  (∀ i, 0 ≤ st'.v i / (1 - beta2 ^ t)) ∧
  (∀ i, 0 < Real.sqrt (st'.v i / (1 - beta2 ^ t)) + epsilon)

/-- `st'` keeps every store cell below `n` as it is in `st` (and has at
least `n` live cells). -/
def Preserve (n : ℕ) (st st' : Store) : Prop :=
  n ≤ st'.size ∧ ∀ r, r < n → st'.data r = st.data r

/-! ## Theorems -/

/-- C8: the cost function is the sum over all pixels of squared intensity
differences, so `ssd A A = 0` for every image `A` and `ssd A B ≥ 0` for
every pair of same-shaped images. -/
theorem ssd_spec :
    (∀ image1 image2 : Img, ssd image1 image2 =
      ∑ i ∈ Finset.range image1.rows, ∑ j ∈ Finset.range image1.cols,
        (image1.px i j - image2.px i j) ^ 2) ∧
    (∀ A : Img, ssd A A = 0) ∧
    (∀ A B : Img, A.rows = B.rows → A.cols = B.cols → 0 ≤ ssd A B) := by
  refine ⟨fun _ _ => rfl, fun A => ?_, fun A B _ _ => ?_⟩
  · simp [ssd]
  · exact Finset.sum_nonneg fun i _ => Finset.sum_nonneg fun j _ => sq_nonneg _

/-- C7: the resampler guards a zero scale parameter by substituting an
inverse scale of 1, uses `1/s` whenever `s ≠ 0`, and always returns an
image of the input's shape (no failure). -/
theorem zero_scale_guard :
    inv_s 0 = 1 ∧
    (∀ s : ℝ, s ≠ 0 → inv_s s = 1 / s) ∧
    (∀ (image : Img) (p : Params),
      (similarity_transform image p).rows = image.rows ∧
      (similarity_transform image p).cols = image.cols) := by
  refine ⟨by simp [inv_s], fun s hs => by simp [inv_s, hs], fun image p => ⟨rfl, rfl⟩⟩

/-- C3: each gradient entry is the symmetric difference quotient of the
cost of the resampled moving image under a `±h` perturbation of that one
parameter (all others held at their original values), and the default
step size is `1e-5`. -/
theorem compute_gradient_spec :
    (∀ (fixed_image moving_image : Img) (params : Params) (h : ℝ) (i : Fin 4),
      compute_gradient fixed_image moving_image params h i =
        (ssd fixed_image (similarity_transform moving_image
            (fun j => if j = i then params j + h else params j))
          - ssd fixed_image (similarity_transform moving_image
            (fun j => if j = i then params j - h else params j))) / (2 * h)) ∧
    (∀ (params : Params) (h : ℝ) (i j : Fin 4), j ≠ i →
      (fun k => if k = i then params k + h else params k) j = params j ∧
      (fun k => if k = i then params k - h else params k) j = params j) ∧
    grad_h_default = 1 / 100000 := by
  refine ⟨fun F M p h i => ?_, fun p h i j hj => by simp [hj], by norm_num [grad_h_default]⟩
  fin_cases i <;> simp [compute_gradient, gradLoop, gradEntry]

/-- C2: at each pyramid level the driver divides the translation entries
(indices 2, 3) of the carried-over parameters by `2^level` before the
Adam call, multiplies the result's translation entries by `2^level`
afterwards, and passes scale and rotation (indices 0, 1) through
unchanged in both directions. -/
theorem registration_level_rescale (fixed_pyramid moving_pyramid : List Img)
    (level : ℕ) (rest : List ℕ) (optimal : Params) (hist : List ℝ)
    (num_pyramid_levels : ℕ) :
    registration_driver fixed_pyramid moving_pyramid num_pyramid_levels =
      registration_loop fixed_pyramid moving_pyramid
        ((List.range num_pyramid_levels).reverse) (identityParams, []) ∧
    (∀ j : Fin 4, j.val < 2 → levelDown level optimal j = optimal j) ∧
    (∀ j : Fin 4, 2 ≤ j.val → levelDown level optimal j = optimal j / 2 ^ level) ∧
    (∀ (r : Params) (j : Fin 4), j.val < 2 → levelUp level r j = r j) ∧
    (∀ (r : Params) (j : Fin 4), 2 ≤ j.val → levelUp level r j = r j * 2 ^ level) ∧
    registration_loop fixed_pyramid moving_pyramid (level :: rest) (optimal, hist) =
      registration_loop fixed_pyramid moving_pyramid rest
        (levelUp level (adam_optimizer (fixed_pyramid.getD level default)
            (moving_pyramid.getD level default) (levelDown level optimal) lr0 iters0
            (fun _ => true) beta1_default beta2_default epsilon_default).1,
          hist ++ (adam_optimizer (fixed_pyramid.getD level default)
            (moving_pyramid.getD level default) (levelDown level optimal) lr0 iters0
            (fun _ => true) beta1_default beta2_default epsilon_default).2) := by
  refine ⟨rfl, fun j hj => ?_, fun j hj => ?_, fun r j hj => ?_, fun r j hj => ?_, rfl⟩
  · simp [levelDown, Nat.not_le.mpr hj]
  · simp [levelDown, hj]
  · simp [levelUp, Nat.not_le.mpr hj]
  · simp [levelUp, hj]

theorem getLastD_append_singleton {α : Type} (l : List α) (x d : α) :
    (l ++ [x]).getLastD d = x := by
  cases l with
  | nil => rfl
  | cons a as => simp [List.getLastD]

theorem pyramid_loop_eq (zoomHalf : Img → Img) :
    ∀ (n : ℕ) (l : List Img), l ≠ [] →
      pyramid_loop zoomHalf n l = l ++ pyramid_chain zoomHalf n (l.getLastD default) := by
  intro n
  induction n with
  | zero => intro l _; simp [pyramid_loop, pyramid_chain]
  | succ k ih =>
      intro l hl
      rw [pyramid_loop, ih _ (by simp), getLastD_append_singleton, pyramid_chain,
        List.append_assoc]
      rfl

theorem pyramid_chain_length (zoomHalf : Img → Img) :
    ∀ (n : ℕ) (x : Img), (pyramid_chain zoomHalf n x).length = n := by
  intro n
  induction n with
  | zero => intro x; rfl
  | succ k ih => intro x; simp [pyramid_chain, ih]

theorem pyramid_chain_getD (zoomHalf : Img → Img) :
    ∀ (n i : ℕ) (x : Img), i < n →
      (pyramid_chain zoomHalf n x).getD i default = zoomHalf^[i + 1] x := by
  intro n
  induction n with
  | zero => intro i x hi; omega
  | succ k ih =>
      intro i x hi
      cases i with
      | zero => simp [pyramid_chain]
      | succ j =>
          rw [pyramid_chain]
          have := ih j (zoomHalf x) (by omega)
          simpa [Function.iterate_succ_apply] using this

theorem create_pyramid_eq (zoomHalf : Img → Img) (image : Img) (levels : ℤ) :
    create_pyramid zoomHalf image levels =
      image :: pyramid_chain zoomHalf (levels - 1).toNat image := by
  rw [create_pyramid, pyramid_loop_eq zoomHalf _ [image] (by simp)]
  rfl

theorem create_pyramid_getD (zoomHalf : Img → Img) (image : Img) (levels : ℤ) :
    ∀ i : ℕ, i ≤ (levels - 1).toNat →
      (create_pyramid zoomHalf image levels).getD i default = zoomHalf^[i] image := by
  intro i hi
  rw [create_pyramid_eq]
  cases i with
  | zero => rfl
  | succ j =>
      simpa using pyramid_chain_getD zoomHalf _ j image (by omega)

/-- C9: for `levels ≥ 1`, `create_pyramid` returns exactly `levels`
entries, entry 0 is the input image unchanged, and every later entry is
the downsampling (`zoomHalf`, modelling `zoom(·, 0.5)`) of the previous
entry. -/
theorem create_pyramid_spec (zoomHalf : Img → Img) (image : Img) (levels : ℤ)
    (hl : 1 ≤ levels) :
    (create_pyramid zoomHalf image levels).length = levels.toNat ∧
    (create_pyramid zoomHalf image levels).getD 0 default = image ∧
    (∀ i : ℕ, i + 1 < (create_pyramid zoomHalf image levels).length →
      (create_pyramid zoomHalf image levels).getD (i + 1) default =
        zoomHalf ((create_pyramid zoomHalf image levels).getD i default)) := by
  have hlen : (create_pyramid zoomHalf image levels).length = (levels - 1).toNat + 1 := by
    rw [create_pyramid_eq]
    simp [pyramid_chain_length]
  refine ⟨by rw [hlen]; omega, by rw [create_pyramid_eq]; rfl, fun i hi => ?_⟩
  rw [hlen] at hi
  rw [create_pyramid_getD zoomHalf image levels i (by omega),
    create_pyramid_getD zoomHalf image levels (i + 1) (by omega),
    Function.iterate_succ_apply']

/-- C9 witness: the theorem instantiated at `levels = 3` with a concrete
downsampler. -/
theorem create_pyramid_spec_witness :
    (1 : ℤ) ≤ 3 ∧
    ((create_pyramid (fun image => image) default 3).length = (3 : ℤ).toNat ∧
    (create_pyramid (fun image => image) default 3).getD 0 default = default ∧
    (∀ i : ℕ, i + 1 < (create_pyramid (fun image => image) default 3).length →
      (create_pyramid (fun image => image) default 3).getD (i + 1) default =
        (fun image : Img => image)
          ((create_pyramid (fun image => image) default 3).getD i default))) :=
  ⟨by norm_num, create_pyramid_spec (fun image => image) default 3 (by norm_num)⟩

/-- C6 counterexample: the claim says every call with `levels < 1` is
rejected, but `create_pyramid` at `levels = 0` returns normally with the
one-entry pyramid `[image]`. -/
theorem create_pyramid_levels_zero_counterexample :
    create_pyramid (fun image => image) default 0 = [default] := by
  rw [create_pyramid_eq]
  rfl

/-- C6 amended: `create_pyramid` has no error condition at all: for every
`levels < 1` it returns the one-entry pyramid `[image]` (the downsampling
loop body runs `max(levels - 1, 0)` times) instead of rejecting. -/
theorem create_pyramid_low_levels (zoomHalf : Img → Img) (image : Img) (levels : ℤ)
    (hl : levels < 1) : create_pyramid zoomHalf image levels = [image] := by
  rw [create_pyramid_eq]
  have h0 : (levels - 1).toNat = 0 := by omega
  rw [h0]
  rfl

/-- C6 witness: the amended claim instantiated at `levels = -3`. -/
theorem create_pyramid_low_levels_witness :
    (-3 : ℤ) < 1 ∧ create_pyramid (fun image => image) default (-3) = [default] :=
  ⟨by norm_num, create_pyramid_low_levels (fun image => image) default (-3) (by norm_num)⟩

theorem adam_iter_params_frozen (fixed_image moving_image : Img) (learning_rate : ℝ)
    (trainable_params : Fin 4 → Bool) (beta1 beta2 epsilon : ℝ) (t : ℕ)
    (st : AdamState) (i : Fin 4) (hmask : trainable_params i = false) :
    (adam_iter fixed_image moving_image learning_rate trainable_params beta1 beta2
      epsilon t st).params i = st.params i := by
  simp [adam_iter, hmask]

theorem adam_go_params_frozen (fixed_image moving_image : Img) (learning_rate : ℝ)
    (trainable_params : Fin 4 → Bool) (beta1 beta2 epsilon : ℝ) (i : Fin 4)
    (hmask : trainable_params i = false) :
    ∀ (fuel t : ℕ) (st : AdamState),
      (adam_go fixed_image moving_image learning_rate trainable_params beta1 beta2
        epsilon t fuel st).params i = st.params i := by
  intro fuel
  induction fuel with
  | zero => intro t st; rfl
  | succ k ih =>
      intro t st
      rw [adam_go, ih]
      exact adam_iter_params_frozen fixed_image moving_image learning_rate
        trainable_params beta1 beta2 epsilon t st i hmask

/-- C5: an Adam call never moves a parameter whose trainable-mask entry
is false: its returned value equals its initial value whatever the
iteration count, learning rate or images. -/
theorem adam_mask_frozen (fixed_image moving_image : Img) (initial_params : Params)
    (learning_rate : ℝ) (num_iterations : ℕ) (trainable_params : Fin 4 → Bool)
    (beta1 beta2 epsilon : ℝ) (i : Fin 4) (hmask : trainable_params i = false) :
    (adam_optimizer fixed_image moving_image initial_params learning_rate
      num_iterations trainable_params beta1 beta2 epsilon).1 i = initial_params i :=
  adam_go_params_frozen fixed_image moving_image learning_rate trainable_params
    beta1 beta2 epsilon i hmask num_iterations 1
    { params := initial_params, m := fun _ => 0, v := fun _ => 0, cost_history := [] }

/-- C5 witness: a fully frozen mask at a concrete two-iteration run. -/
theorem adam_mask_frozen_witness :
    ((fun _ : Fin 4 => false) 0 = false) ∧
    (adam_optimizer default default identityParams 1 2 (fun _ => false)
      beta1_default beta2_default epsilon_default).1 0 = identityParams 0 :=
  ⟨rfl, adam_mask_frozen default default identityParams 1 2 (fun _ => false)
    beta1_default beta2_default epsilon_default 0 rfl⟩

theorem adam_go_v_nonneg (fixed_image moving_image : Img) (learning_rate : ℝ)
    (trainable_params : Fin 4 → Bool) (beta1 beta2 epsilon : ℝ)
    (hb2l : 0 ≤ beta2) (hb2u : beta2 ≤ 1) :
    ∀ (fuel t : ℕ) (st : AdamState), (∀ i, 0 ≤ st.v i) →
      ∀ i, 0 ≤ (adam_go fixed_image moving_image learning_rate trainable_params
        beta1 beta2 epsilon t fuel st).v i := by
  intro fuel
  induction fuel with
  | zero => intro t st hv i; exact hv i
  | succ k ih =>
      intro t st hv i
      rw [adam_go]
      refine ih (t + 1) _ (fun j => ?_) i
      have h1 : 0 ≤ beta2 * st.v j := mul_nonneg hb2l (hv j)
      have h2 : 0 ≤ (1 - beta2) *
          compute_gradient fixed_image moving_image st.params grad_h_default j ^ 2 :=
        mul_nonneg (by linarith) (sq_nonneg _)
      simpa [adam_iter] using add_nonneg h1 h2

theorem adam_iter_spec_of_v_nonneg (fixed_image moving_image : Img) (learning_rate : ℝ)
    (trainable_params : Fin 4 → Bool) (beta1 beta2 epsilon : ℝ) (t : ℕ)
    (st : AdamState) (hb1l : 0 ≤ beta1) (hb1u : beta1 < 1) (hb2l : 0 ≤ beta2)
    (hb2u : beta2 < 1) (he : 0 < epsilon) (ht : 1 ≤ t) (hv : ∀ i, 0 ≤ st.v i) :
    AdamIterSpec fixed_image moving_image learning_rate trainable_params beta1 beta2
      epsilon t st := by
  have hb1t : beta1 ^ t < 1 := pow_lt_one₀ hb1l hb1u (by omega)
  have hb2t : beta2 ^ t < 1 := pow_lt_one₀ hb2l hb2u (by omega)
  have hvd : ∀ i, 0 ≤ (adam_iter fixed_image moving_image learning_rate trainable_params
      beta1 beta2 epsilon t st).v i / (1 - beta2 ^ t) := by
    intro i
    refine div_nonneg ?_ (by linarith)
    have h1 : 0 ≤ beta2 * st.v i := mul_nonneg hb2l (hv i)
    have h2 : 0 ≤ (1 - beta2) *
        compute_gradient fixed_image moving_image st.params grad_h_default i ^ 2 :=
      mul_nonneg (by linarith) (sq_nonneg _)
    simpa [adam_iter] using add_nonneg h1 h2
  refine ⟨fun i => rfl, fun i => rfl, fun i hi => ?_, fun i hi => ?_,
    by intro h; nlinarith, by intro h; nlinarith, hvd, fun i => ?_⟩
  · simp [adam_iter, hi]
  · simp [adam_iter, hi]
  · exact add_pos_of_nonneg_of_pos (Real.sqrt_nonneg _) he

/-- C1: an Adam call starts its moment estimates `m`, `v` at zero, and at
every iteration `t ≥ 1` the reached state satisfies the update contract:
`m = beta1*m + (1-beta1)*grad`, `v = beta2*v + (1-beta2)*grad^2`, the
trainable parameters move by exactly
`learningRate * (m/(1-beta1^t)) / (sqrt(v/(1-beta2^t)) + epsilon)`, and
no denominator of the update vanishes. -/
theorem adam_optimizer_spec (fixed_image moving_image : Img) (initial_params : Params)
    (learning_rate : ℝ) (num_iterations : ℕ) (trainable_params : Fin 4 → Bool)
    (beta1 beta2 epsilon : ℝ) (hb1l : 0 ≤ beta1) (hb1u : beta1 < 1)
    (hb2l : 0 ≤ beta2) (hb2u : beta2 < 1) (he : 0 < epsilon) :
    adam_optimizer fixed_image moving_image initial_params learning_rate
        num_iterations trainable_params beta1 beta2 epsilon =
      ((adam_go fixed_image moving_image learning_rate trainable_params beta1 beta2
          epsilon 1 num_iterations
          ⟨initial_params, fun _ => 0, fun _ => 0, []⟩).params,
        (adam_go fixed_image moving_image learning_rate trainable_params beta1 beta2
          epsilon 1 num_iterations
          ⟨initial_params, fun _ => 0, fun _ => 0, []⟩).cost_history) ∧
    (∀ t : ℕ, 1 ≤ t →
      AdamIterSpec fixed_image moving_image learning_rate trainable_params beta1 beta2
        epsilon t
        (adam_go fixed_image moving_image learning_rate trainable_params beta1 beta2
          epsilon 1 (t - 1) ⟨initial_params, fun _ => 0, fun _ => 0, []⟩)) := by
  refine ⟨rfl, fun t ht => ?_⟩
  refine adam_iter_spec_of_v_nonneg _ _ _ _ _ _ _ _ _ hb1l hb1u hb2l hb2u he ht ?_
  exact adam_go_v_nonneg fixed_image moving_image learning_rate trainable_params
    beta1 beta2 epsilon hb2l (le_of_lt hb2u) (t - 1) 1
    ⟨initial_params, fun _ => 0, fun _ => 0, []⟩ (fun _ => le_refl 0)

/-- C1 witness: the theorem instantiated at the source's default
hyperparameters, a concrete image pair and a two-iteration budget. -/
theorem adam_optimizer_spec_witness :
    (0 : ℝ) ≤ beta1_default ∧ beta1_default < 1 ∧ (0 : ℝ) ≤ beta2_default ∧
    beta2_default < 1 ∧ (0 : ℝ) < epsilon_default ∧
    (adam_optimizer default default identityParams 1 2 (fun _ => true)
        beta1_default beta2_default epsilon_default =
      ((adam_go default default 1 (fun _ => true) beta1_default beta2_default
          epsilon_default 1 2
          ⟨identityParams, fun _ => 0, fun _ => 0, []⟩).params,
        (adam_go default default 1 (fun _ => true) beta1_default beta2_default
          epsilon_default 1 2
          ⟨identityParams, fun _ => 0, fun _ => 0, []⟩).cost_history) ∧
    (∀ t : ℕ, 1 ≤ t →
      AdamIterSpec default default 1 (fun _ => true) beta1_default beta2_default
        epsilon_default t
        (adam_go default default 1 (fun _ => true) beta1_default beta2_default
          epsilon_default 1 (t - 1) ⟨identityParams, fun _ => 0, fun _ => 0, []⟩))) :=
  ⟨by norm_num [beta1_default], by norm_num [beta1_default], by norm_num [beta2_default],
    by norm_num [beta2_default], by norm_num [epsilon_default],
    adam_optimizer_spec default default identityParams 1 2 (fun _ => true)
      beta1_default beta2_default epsilon_default (by norm_num [beta1_default])
      (by norm_num [beta1_default]) (by norm_num [beta2_default])
      (by norm_num [beta2_default]) (by norm_num [epsilon_default])⟩

theorem identityParams_eval :
    identityParams 0 = 1 ∧ identityParams 1 = 0 ∧ identityParams 2 = 0 ∧
    identityParams 3 = 0 := by
  refine ⟨rfl, ?_, ?_, ?_⟩ <;> simp [identityParams]

theorem transformMatrix_id (a b : Fin 2) :
    transformMatrix 1 (theta_rad 0) a b = if a = b then 1 else 0 := by
  have h0 : theta_rad 0 = 0 := by simp [theta_rad]
  rw [h0]
  fin_cases a <;> fin_cases b <;> simp [transformMatrix, inv_s]

theorem transformOffset_id (image : Img) :
    transformOffset image identityParams = (0, 0) := by
  unfold transformOffset
  rw [identityParams_eval.1, identityParams_eval.2.1]
  rw [show identityParams 2 = 0 from identityParams_eval.2.2.1,
    show identityParams 3 = 0 from identityParams_eval.2.2.2]
  simp only [transformMatrix_id]
  norm_num

theorem bilinear_natCast (image : Img) (i j : ℕ) (hi : i < image.rows)
    (hj : j < image.cols) : bilinear image (i : ℝ) (j : ℝ) = image.px i j := by
  have hpix : pixAt image (i : ℤ) (j : ℤ) = image.px i j := by
    rw [pixAt, if_pos]
    · simp
    · refine ⟨by positivity, by exact_mod_cast hi, by positivity, by exact_mod_cast hj⟩
  simp only [bilinear, Int.floor_natCast]
  push_cast
  rw [hpix]
  ring

/-- C4: resampling with the identity parameters `(1, 0, 0, 0)` uses the
identity inverse linear map and the zero offset, so bilinear
interpolation samples every pixel at itself and the output reproduces
the input image exactly at every in-bounds pixel. -/
theorem identity_resample (image : Img) (i j : ℕ) (hi : i < image.rows)
    (hj : j < image.cols) :
    (∀ a b : Fin 2, transformMatrix (identityParams 0) (theta_rad (identityParams 1)) a b
      = if a = b then 1 else 0) ∧
    transformOffset image identityParams = (0, 0) ∧
    (similarity_transform image identityParams).px i j = image.px i j := by
  have hM : ∀ a b : Fin 2,
      transformMatrix (identityParams 0) (theta_rad (identityParams 1)) a b
        = if a = b then 1 else 0 := by
    intro a b
    rw [identityParams_eval.1, identityParams_eval.2.1]
    exact transformMatrix_id a b
  refine ⟨hM, transformOffset_id image, ?_⟩
  show bilinear image _ _ = image.px i j
  rw [transformOffset_id image]
  simp only [hM]
  norm_num
  exact bilinear_natCast image i j hi hj

/-- C4 witness: a concrete 2x2 image, checked at pixel `(0, 1)`. -/
theorem identity_resample_witness :
    0 < (Img.mk 2 2 fun a b => (a : ℝ) + 2 * (b : ℝ)).rows ∧
    1 < (Img.mk 2 2 fun a b => (a : ℝ) + 2 * (b : ℝ)).cols ∧
    ((∀ a b : Fin 2, transformMatrix (identityParams 0) (theta_rad (identityParams 1)) a b
      = if a = b then 1 else 0) ∧
    transformOffset (Img.mk 2 2 fun a b => (a : ℝ) + 2 * (b : ℝ)) identityParams = (0, 0) ∧
    (similarity_transform (Img.mk 2 2 fun a b => (a : ℝ) + 2 * (b : ℝ))
      identityParams).px 0 1 = (Img.mk 2 2 fun a b => (a : ℝ) + 2 * (b : ℝ)).px 0 1) :=
  ⟨by norm_num, by norm_num,
    identity_resample (Img.mk 2 2 fun a b => (a : ℝ) + 2 * (b : ℝ)) 0 1
      (by norm_num) (by norm_num)⟩

theorem preserve_trans {n : ℕ} {st1 st2 st3 : Store} (h12 : Preserve n st1 st2)
    (h23 : Preserve n st2 st3) : Preserve n st1 st3 :=
  ⟨h23.1, fun r hr => (h23.2 r hr).trans (h12.2 r hr)⟩

theorem alloc_preserve {st : Store} {val : Params} {n : ℕ} (hn : n ≤ st.size) :
    Preserve n st (st.alloc val).1 := by
  refine ⟨by simp [Store.alloc]; omega, fun r hr => ?_⟩
  simp only [Store.alloc]
  rw [if_neg (by omega)]

theorem write_preserve {st : Store} {w : ℕ} {val : Params} {n : ℕ} (hn : n ≤ st.size)
    (hw : n ≤ w) : Preserve n st (st.write w val) := by
  refine ⟨by simpa [Store.write] using hn, fun r hr => ?_⟩
  simp only [Store.write]
  rw [if_neg (by omega)]

theorem cg_step_frame (fixed_image moving_image : Img) (p : Params) (h : ℝ)
    (gref : ℕ) (st : Store) (i : Fin 4) (n : ℕ) (hn : n ≤ st.size) (hg : n ≤ gref) :
    Preserve n st (cg_step fixed_image moving_image p h gref st i) := by
  have h1 : Preserve n st (st.alloc p).1 := alloc_preserve hn
  have h2 : Preserve n st ((st.alloc p).1.write (st.alloc p).2
      (fun j => if j = i then p j + h else p j)) :=
    preserve_trans h1 (write_preserve h1.1 (show n ≤ st.size from hn))
  have h3 : Preserve n st (((st.alloc p).1.write (st.alloc p).2
      (fun j => if j = i then p j + h else p j)).alloc p).1 :=
    preserve_trans h2 (alloc_preserve h2.1)
  have h4 : Preserve n st ((((st.alloc p).1.write (st.alloc p).2
      (fun j => if j = i then p j + h else p j)).alloc p).1.write
      (((st.alloc p).1.write (st.alloc p).2
        (fun j => if j = i then p j + h else p j)).alloc p).2
      (fun j => if j = i then p j - h else p j)) :=
    preserve_trans h3 (write_preserve h3.1 (show n ≤ st.size + 1 by omega))
  exact preserve_trans h4 (write_preserve h4.1 hg)

theorem compute_gradient_st_frame (fixed_image moving_image : Img) (st : Store)
    (pref : ℕ) (h : ℝ) (n : ℕ) (hn : n ≤ st.size) :
    Preserve n st (compute_gradient_st fixed_image moving_image st pref h).1 := by
  simp only [compute_gradient_st, List.foldl]
  have hg : n ≤ (st.alloc (fun _ => 0)).2 := hn
  have h0 : Preserve n st (st.alloc (fun _ => 0)).1 := alloc_preserve hn
  have h1 := preserve_trans h0
    (cg_step_frame fixed_image moving_image (st.data pref) h _ _ 0 n h0.1 hg)
  have h2 := preserve_trans h1
    (cg_step_frame fixed_image moving_image (st.data pref) h _ _ 1 n h1.1 hg)
  have h3 := preserve_trans h2
    (cg_step_frame fixed_image moving_image (st.data pref) h _ _ 2 n h2.1 hg)
  exact preserve_trans h3
    (cg_step_frame fixed_image moving_image (st.data pref) h _ _ 3 n h3.1 hg)

theorem adam_iter_st_frame (fixed_image moving_image : Img) (learning_rate : ℝ)
    (trainable_params : Fin 4 → Bool) (beta1 beta2 epsilon : ℝ) (t : ℕ) (st : Store)
    (pref : ℕ) (mv : Params × Params) (hist : List ℝ) (n : ℕ) (hn : n ≤ st.size)
    (hp : n ≤ pref) :
    Preserve n st (adam_iter_st fixed_image moving_image learning_rate trainable_params
      beta1 beta2 epsilon t st pref mv hist).1 := by
  simp only [adam_iter_st]
  have h1 : Preserve n st
      (compute_gradient_st fixed_image moving_image st pref grad_h_default).1 :=
    compute_gradient_st_frame fixed_image moving_image st pref grad_h_default n hn
  exact preserve_trans h1 (write_preserve h1.1 hp)

theorem adam_go_st_frame (fixed_image moving_image : Img) (learning_rate : ℝ)
    (trainable_params : Fin 4 → Bool) (beta1 beta2 epsilon : ℝ) (pref : ℕ) (n : ℕ)
    (hp : n ≤ pref) :
    ∀ (fuel t : ℕ) (acc : Store × (Params × Params) × List ℝ), n ≤ acc.1.size →
      Preserve n acc.1 (adam_go_st fixed_image moving_image learning_rate
        trainable_params beta1 beta2 epsilon pref t fuel acc).1 := by
  intro fuel
  induction fuel with
  | zero => intro t acc hn; exact ⟨hn, fun r hr => rfl⟩
  | succ k ih =>
      intro t acc hn
      rw [adam_go_st]
      have h1 := adam_iter_st_frame fixed_image moving_image learning_rate
        trainable_params beta1 beta2 epsilon t acc.1 pref acc.2.1 acc.2.2 n hn hp
      exact preserve_trans h1 (ih (t + 1) _ h1.1)

/-- C10: neither the Adam solver nor the gradient estimator writes
through the caller's array: after `adam_optimizer_st` every store cell
the caller already owned is element-wise unchanged and the returned
parameter array is a fresh cell, and likewise `compute_gradient_st`
leaves every pre-existing cell unchanged. -/
theorem no_caller_mutation (fixed_image moving_image : Img) (st : Store)
    (initRef : ℕ) (learning_rate : ℝ) (num_iterations : ℕ)
    (trainable_params : Fin 4 → Bool) (beta1 beta2 epsilon : ℝ) :
    (∀ r, r < st.size →
      (adam_optimizer_st fixed_image moving_image st initRef learning_rate
        num_iterations trainable_params beta1 beta2 epsilon).1.data r = st.data r) ∧
    (adam_optimizer_st fixed_image moving_image st initRef learning_rate
      num_iterations trainable_params beta1 beta2 epsilon).2.1 = st.size ∧
    (∀ (pref : ℕ) (h : ℝ) (r : ℕ), r < st.size →
      (compute_gradient_st fixed_image moving_image st pref h).1.data r = st.data r) := by
  refine ⟨fun r hr => ?_, rfl, fun pref h r hr =>
    (compute_gradient_st_frame fixed_image moving_image st pref h st.size
      (le_refl _)).2 r hr⟩
  simp only [adam_optimizer_st]
  have h0 : Preserve st.size st (st.alloc (st.data initRef)).1 :=
    alloc_preserve (le_refl _)
  have h1 := adam_go_st_frame fixed_image moving_image learning_rate trainable_params
    beta1 beta2 epsilon (st.alloc (st.data initRef)).2 st.size (le_refl _)
    num_iterations 1 ((st.alloc (st.data initRef)).1, (fun _ => 0, fun _ => 0), []) h0.1
  exact (preserve_trans h0 h1).2 r hr

end MedReg
